import Mathlib

/-!
Verification development for the grafana-cloud-emby exporters.

The repository contains four near-duplicate Python exporter scripts that poll
an Emby media server and republish metrics.  This file gives a shallow
embedding of the functions the claims are about:

* parse_emby_datetime from src/exporters/emby_exporter_fixed.py (lines 70-114)
  and src/exporters/emby_livetv_ultimate.py (lines 125-149), together with a
  model of Python datetime.fromisoformat (pre-3.11 semantics: fraction of
  exactly 3 or 6 digits, no trailing Z designator, offset of the form
  sign HH:MM; the repository code exists precisely because that parser
  rejects 7-digit fractions).  The model covers the full
  date T time fraction offset form, which is the only shape the exporters
  feed to it on the paths the claims exercise.
* the _make_request helpers of the ultimate and fixed exporters,
* the session, tuner, recordings and EPG collectors,
* the cross-cycle session state (channel_watch_start, last_channel_switch).

Machine floats (time.time) are modelled as rationals; Python dict lookups
via .get with a default are modelled with Option and getD; Python truthiness
of strings and lists is modelled explicitly where the code relies on it.
-/

/-- Numeric value of a decimal digit character. -/
def dval (c : Char) : Nat := c.toNat - 48

/-- Value of a list of decimal digit characters, most significant first. -/
def digitsVal (ds : List Char) : Nat := ds.foldl (fun a c => a * 10 + dval c) 0

/-- Gregorian leap-year rule, as used by Python datetime validation. -/
def isLeap (y : Nat) : Bool := (y % 4 == 0 && y % 100 != 0) || y % 400 == 0

/-- Days in a month, as validated by Python datetime. -/
def daysInMonth (y mo : Nat) : Nat :=
  if mo = 2 then (if isLeap y then 29 else 28)
  else if mo = 4 ∨ mo = 6 ∨ mo = 9 ∨ mo = 11 then 30
  else 31

/-- Model of a Python datetime value: calendar fields plus an optional
fixed UTC offset in minutes (None models a naive datetime). -/
structure PyDateTime where
  year : Nat
  month : Nat
  day : Nat
  hour : Nat
  minute : Nat
  second : Nat
  microsecond : Nat
  tzOffsetMinutes : Option Int
deriving DecidableEq, Repr

/-- Optional fractional-second part of Python fromisoformat (pre-3.11):
a dot followed by a digit run of length exactly 3 or 6, giving the
microsecond value.  No dot means zero microseconds. -/
def readFrac : List Char → Option (Nat × List Char)
  | '.' :: l =>
    let ds := l.takeWhile Char.isDigit
    let r := l.dropWhile Char.isDigit
    if ds.length = 3 then some (digitsVal ds * 1000, r)
    else if ds.length = 6 then some (digitsVal ds, r)
    else none
  | l => some (0, l)

/-- Optional fixed offset of the form sign HH:MM.  Python builds a timezone
from the parsed timedelta, which must stay below 24 hours in magnitude.
The caller requires the remainder to be empty. -/
def readOffset : List Char → Option (Option Int × List Char)
  | [] => some (none, [])
  | c :: a :: b :: k :: d :: e :: r =>
    if (c = '+' ∨ c = '-') ∧ a.isDigit ∧ b.isDigit ∧ k = ':' ∧ d.isDigit ∧ e.isDigit then
      if (10 * dval a + dval b) * 60 + (10 * dval d + dval e) < 1440 then
        some (some ((if c = '+' then (1 : Int) else -1) *
          ((10 * dval a + dval b) * 60 + (10 * dval d + dval e))), r)
      else none
    else none
  | _ => none

/-- Model of Python datetime.fromisoformat (pre-3.11) restricted to the
full date T time form the exporters feed it:
YYYY-MM-DDTHH:MM:SS followed by an optional fraction and optional offset,
with calendar validation.  Returns none where Python raises ValueError. -/
def fromisoformat : List Char → Option PyDateTime
  | y1 :: y2 :: y3 :: y4 :: c1 :: mo1 :: mo2 :: c2 :: dd1 :: dd2 :: c3 ::
      hh1 :: hh2 :: c4 :: mi1 :: mi2 :: c5 :: se1 :: se2 :: rest =>
    if y1.isDigit ∧ y2.isDigit ∧ y3.isDigit ∧ y4.isDigit ∧ c1 = '-' ∧
        mo1.isDigit ∧ mo2.isDigit ∧ c2 = '-' ∧ dd1.isDigit ∧ dd2.isDigit ∧ c3 = 'T' ∧
        hh1.isDigit ∧ hh2.isDigit ∧ c4 = ':' ∧ mi1.isDigit ∧ mi2.isDigit ∧ c5 = ':' ∧
        se1.isDigit ∧ se2.isDigit then
      match readFrac rest with
      | none => none
      | some (micro, r1) =>
        match readOffset r1 with
        | none => none
        | some (tz, r2) =>
          let y := digitsVal [y1, y2, y3, y4]
          let mo := digitsVal [mo1, mo2]
          let d := digitsVal [dd1, dd2]
          if r2 = [] ∧ 1 ≤ y ∧ y ≤ 9999 ∧ 1 ≤ mo ∧ mo ≤ 12 ∧ 1 ≤ d ∧ d ≤ daysInMonth y mo ∧
              digitsVal [hh1, hh2] ≤ 23 ∧ digitsVal [mi1, mi2] ≤ 59 ∧
              digitsVal [se1, se2] ≤ 59 then
            some ⟨y, mo, d, digitsVal [hh1, hh2], digitsVal [mi1, mi2],
              digitsVal [se1, se2], micro, tz⟩
          else none
    else none
  | _ => none

/-- Python str.endswith applied to the Z designator. -/
def endsWithZ : List Char → Bool
  | [] => false
  | [c] => c == 'Z'
  | _ :: c :: l => endsWithZ (c :: l)

/-- Python str.replace of every Z occurrence by +00:00, as done by
date_string.replace in both parse_emby_datetime variants. -/
def replaceZ : List Char → List Char
  | [] => []
  | c :: l =>
    if c = 'Z' then '+' :: '0' :: '0' :: ':' :: '0' :: '0' :: replaceZ l
    else c :: replaceZ l

/-- The optional third capture group of the regex used by both exporters:
sign HH:MM or Z, tried at the position after the digit run; an optional
group that fails to match yields none (Python group(3) is None). -/
def matchTz (l : List Char) : Option (List Char) :=
  match l with
  | c :: a :: b :: k :: d :: e :: _ =>
    if (c = '+' ∨ c = '-') ∧ a.isDigit ∧ b.isDigit ∧ k = ':' ∧ d.isDigit ∧ e.isDigit then
      some [c, a, b, ':', d, e]
    else if c = 'Z' then some ['Z'] else none
  | c :: _ => if c = 'Z' then some ['Z'] else none
  | [] => none

/-- Model of re.match with the pattern used by both parse_emby_datetime
variants: 19 date-time characters (group 1), a dot, exactly 6 digits
(group 2), a greedy run of further digits, then the optional offset
group (group 3).  re.match anchors at the start only; trailing input
after the match is ignored. -/
def reMatchEmby : List Char → Option (List Char × List Char × Option (List Char))
  | y1 :: y2 :: y3 :: y4 :: '-' :: m1 :: m2 :: '-' :: d1 :: d2 :: 'T' ::
      h1 :: h2 :: ':' :: n1 :: n2 :: ':' :: s1 :: s2 :: '.' ::
      f1 :: f2 :: f3 :: f4 :: f5 :: f6 :: rest =>
    if y1.isDigit ∧ y2.isDigit ∧ y3.isDigit ∧ y4.isDigit ∧ m1.isDigit ∧ m2.isDigit ∧
        d1.isDigit ∧ d2.isDigit ∧ h1.isDigit ∧ h2.isDigit ∧ n1.isDigit ∧ n2.isDigit ∧
        s1.isDigit ∧ s2.isDigit ∧ f1.isDigit ∧ f2.isDigit ∧ f3.isDigit ∧ f4.isDigit ∧
        f5.isDigit ∧ f6.isDigit then
      some ([y1, y2, y3, y4, '-', m1, m2, '-', d1, d2, 'T', h1, h2, ':', n1, n2, ':', s1, s2],
            [f1, f2, f3, f4, f5, f6],
            matchTz (rest.dropWhile Char.isDigit))
    else none
  | _ => none

namespace Ultimate

/-- parse_emby_datetime from emby_livetv_ultimate.py lines 125-149.
Empty input is falsy and yields none immediately; the first standard
attempt substitutes +00:00 for Z when the string ends with Z; on
ValueError the regex fallback truncates the fraction to 6 digits and
retries; any remaining failure yields none (all exceptions are caught). -/
def parse_emby_datetime (s : List Char) : Option PyDateTime :=
  if s = [] then none
  else
    match (if endsWithZ s then fromisoformat (replaceZ s) else fromisoformat s) with
    | some dt => some dt
    | none =>
      match reMatchEmby s with
      | some (base, micro6, tzg) =>
        let tzs := match tzg with
          | none => []
          | some tz => if tz = ['Z'] then ['+', '0', '0', ':', '0', '0'] else tz
        fromisoformat (base ++ '.' :: (micro6 ++ tzs))
      | none => none

end Ultimate

namespace Fixed

/-- parse_emby_datetime from emby_exporter_fixed.py lines 70-114.
Same as the ultimate variant, with one extra fallback: if the regex does
not match and the string contains a dot, it drops the fraction entirely,
reattaches the offset (the part between the first and second plus sign,
or +00:00 when the string contains Z) and retries; note that when the
regex matches but the rebuilt string still fails to parse, the raised
ValueError is caught and the function returns none without reaching the
drop-fraction fallback, exactly as in the Python control flow. -/
def parse_emby_datetime (s : List Char) : Option PyDateTime :=
  if s = [] then none
  else
    match (if endsWithZ s then fromisoformat (replaceZ s) else fromisoformat s) with
    | some dt => some dt
    | none =>
      match reMatchEmby s with
      | some (base, micro6, tzg) =>
        let tzs := match tzg with
          | none => []
          | some tz => if tz = ['Z'] then ['+', '0', '0', ':', '0', '0'] else tz
        fromisoformat (base ++ '.' :: (micro6 ++ tzs))
      | none =>
        if s.contains '.' then
          let datePart := s.takeWhile (· ≠ '.')
          let tzPart : List Char :=
            if s.contains '+' then
              '+' :: ((s.dropWhile (· ≠ '+')).drop 1).takeWhile (· ≠ '+')
            else if s.contains 'Z' then ['+', '0', '0', ':', '0', '0']
            else []
          fromisoformat (datePart ++ tzPart)
        else none

end Fixed

/-- The shape of a valid trailing offset in the claim: the Z designator or
sign HH:MM built from digit characters. -/
inductive OffsetForm where
  | zulu
  | numeric (plus : Bool) (a b d e : Char)
deriving DecidableEq, Repr

/-- The characters of the offset as they appear in the input string. -/
def offsetChars : OffsetForm → List Char
  | .zulu => ['Z']
  | .numeric plus a b d e => (if plus then '+' else '-') :: a :: b :: ':' :: d :: e :: []

/-- The characters both parse_emby_datetime variants reattach after
truncation: Z is replaced by +00:00, a numeric offset is kept. -/
def rebuiltOffsetChars : OffsetForm → List Char
  | .zulu => ['+', '0', '0', ':', '0', '0']
  | .numeric plus a b d e => (if plus then '+' else '-') :: a :: b :: ':' :: d :: e :: []

/-- Validity of the offset: digit characters and a value Python timezone
accepts (hours at most 23, minutes at most 59). -/
def offsetWellFormed : OffsetForm → Prop
  | .zulu => True
  | .numeric _ a b d e => a.isDigit = true ∧ b.isDigit = true ∧ d.isDigit = true ∧
      e.isDigit = true ∧ 10 * dval a + dval b ≤ 23 ∧ 10 * dval d + dval e ≤ 59

/-- Offset value in minutes east of UTC. -/
def offsetMinutes : OffsetForm → Int
  | .zulu => 0
  | .numeric plus a b d e =>
      (if plus then (1 : Int) else -1) * ((10 * dval a + dval b) * 60 + (10 * dval d + dval e))

/-- The timestamp strings of claim C6: a full date-time, a fraction of 6
digits followed by at least one more digit, and a valid offset. -/
def tsString (y1 y2 y3 y4 mo1 mo2 dd1 dd2 hh1 hh2 mi1 mi2 ss1 ss2 f1 f2 f3 f4 f5 f6 : Char)
    (rest : List Char) (off : OffsetForm) : List Char :=
  [y1, y2, y3, y4, '-', mo1, mo2, '-', dd1, dd2, 'T', hh1, hh2, ':', mi1, mi2, ':', ss1, ss2, '.',
    f1, f2, f3, f4, f5, f6] ++ rest ++ offsetChars off

/-- The head of the list, if any, is not a digit. -/
def headNotDigit : List Char → Prop
  | [] => True
  | c :: _ => c.isDigit = false

/-- The NowPlayingItem dict of a session, restricted to the keys the
exporters read: Type, Name, ChannelNumber, Id. -/
structure NowPlayingItem where
  typ : String
  name : String
  channelNumber : String
  itemId : String
deriving DecidableEq, Repr

/-- The PlayState dict: PlayMethod and IsPaused. -/
structure PlayState where
  playMethod : String
  isPaused : Bool
deriving DecidableEq, Repr

/-- The TranscodingInfo dict: Bitrate, Height, Framerate, each read with a
zero default, so an absent key is modelled as the value 0. -/
structure TranscodingInfo where
  bitrate : Nat
  height : Nat
  framerate : Nat
deriving DecidableEq, Repr

/-- One entry of the Sessions response.  Option fields model the presence
of the corresponding dict key (the code distinguishes key-present via
the in operator from value lookups with defaults). -/
structure Session where
  id : String
  userName : String
  client : String
  bandwidth : Option Nat
  nowPlaying : Option NowPlayingItem
  playState : Option PlayState
  transcodingInfo : Option TranscodingInfo
deriving DecidableEq, Repr

namespace Ultimate

/-- The cross-cycle mutable state of EmbyLiveTVUltimateExporter that the
session collector reads and writes (emby_livetv_ultimate.py lines 163-169):
last_channel_switch keyed by user, channel_watch_start keyed by session id
holding (user, channel, start time), the cumulative per-user switch counter
and per-(user, channel) watch-time counter values, and the peak-streams
high-water mark.  time.time() values are rationals. -/
structure UState where
  lastChannelSwitch : String → Option String
  channelWatchStart : String → Option (String × String × ℚ)
  switchCount : String → Nat
  watchTime : String → String → ℚ
  peakStreams24h : Nat

/-- The state at process start: empty dicts, zero counters. -/
def initUState : UState :=
  ⟨fun _ => none, fun _ => none, fun _ => 0, fun _ _ => 0, 0⟩

/-- Lines 314-319 of emby_livetv_ultimate.py: channel-switch tracking,
keyed by user.  If the user was seen before on a different channel the
switch counter is incremented; then the last-channel entry is overwritten. -/
def switchStep (st : UState) (user channelName : String) : UState :=
  let st1 :=
    match st.lastChannelSwitch user with
    | some lastChannel =>
      if lastChannel ≠ channelName then
        { st with switchCount :=
            fun u => if u = user then st.switchCount u + 1 else st.switchCount u }
      else st
    | none => st
  { st1 with lastChannelSwitch :=
      fun u => if u = user then some channelName else st1.lastChannelSwitch u }

/-- Lines 322-328 of emby_livetv_ultimate.py: watch-time tracking, keyed by
session id.  First observation creates the anchor (user, channel, now);
later observations on the same channel add now minus the anchor start to
the (user, channel) watch-time counter and leave the anchor untouched; a
different channel leaves everything untouched. -/
def watchStep (st : UState) (sessionId user channelName : String) (now : ℚ) : UState :=
  match st.channelWatchStart sessionId with
  | none =>
    { st with channelWatchStart :=
        fun sid =>
          if sid = sessionId then some (user, channelName, now) else st.channelWatchStart sid }
  | some (_, oldChannel, startTime) =>
    if oldChannel = channelName then
      { st with watchTime :=
          fun u c =>
            if u = user ∧ c = channelName then st.watchTime u c + (now - startTime)
            else st.watchTime u c }
    else st

/-- The state updates applied for one live-TV session in the loop body of
collect_sessions: switch tracking first, then watch-time tracking. -/
def processLiveSession (st : UState) (sessionId user channelName : String) (now : ℚ) : UState :=
  watchStep (switchStep st user channelName) sessionId user channelName now

/-- The session-derived metric values one cycle of collect_sessions sets
(emby_livetv_ultimate.py lines 401-410): the live stream count, the number
of distinct watching users, the bandwidth total in Mbps summed from
transcoding bitrates, the transcoding count, the per-session bitrate
series in kbps keyed (user, channel, session id), and the peak gauge. -/
structure USessMetrics where
  streamsActive : Nat
  usersWatching : Nat
  totalBandwidthMbps : ℚ
  transcodingActive : Nat
  streamBitrateKbps : List ((String × String × String) × ℚ)
  peakConcurrentStreams : Nat
deriving DecidableEq, Repr

/-- The loop accumulator of collect_sessions. -/
structure UAcc where
  st : UState
  streams : Nat
  users : Finset String
  transcodes : Nat
  totalMbps : ℚ
  series : List ((String × String × String) × ℚ)

/-- The loop body of collect_sessions (emby_livetv_ultimate.py lines
290-399) restricted to the metrics the claims are about: a session counts
as live TV iff its NowPlayingItem Type is TvChannel; the state updates of
lines 314-328 run for every live-TV session; the play method defaults to
Unknown; the per-session bitrate series and the Mbps total are fed only
from TranscodingInfo and only when its bitrate is positive. -/
def sessionStep (now : ℚ) (a : UAcc) (s : Session) : UAcc :=
  match s.nowPlaying with
  | none => a
  | some np =>
    if np.typ = "TvChannel" then
      let channelName := np.name
      let a1 := { a with
        streams := a.streams + 1
        users := insert s.userName a.users
        st := processLiveSession a.st s.id s.userName channelName now }
      let playMethod := (s.playState.map PlayState.playMethod).getD "Unknown"
      let a2 :=
        if playMethod = "Transcode" then { a1 with transcodes := a1.transcodes + 1 } else a1
      match s.transcodingInfo with
      | some ti =>
        if ti.bitrate > 0 then
          { a2 with
            series := a2.series ++ [((s.userName, channelName, s.id), (ti.bitrate : ℚ) / 1000)]
            totalMbps := a2.totalMbps + (ti.bitrate : ℚ) / 1000000 }
        else a2
      | none => a2
    else a

/-- collect_sessions of EmbyLiveTVUltimateExporter (lines 274-454 of
emby_livetv_ultimate.py), for the metrics the claims are about.  A failed
request and an empty session list are both falsy, so the collector
returns early without touching any gauge or state (modelled by none);
otherwise it folds the loop body over the sessions, updates the peak
high-water mark, and sets the gauges from the accumulated counts. -/
def collect_sessions (st : UState) (resp : Option (List Session)) (now : ℚ) :
    Option (UState × USessMetrics) :=
  match resp with
  | none => none
  | some sessions =>
    if sessions.isEmpty then none
    else
      let a := sessions.foldl (sessionStep now) ⟨st, 0, ∅, 0, 0, []⟩
      let newPeak := if a.streams > a.st.peakStreams24h then a.streams else a.st.peakStreams24h
      some ({ a.st with peakStreams24h := newPeak },
        ⟨a.streams, a.users.card, a.totalMbps, a.transcodes, a.series, newPeak⟩)

end Ultimate

namespace Fixed

/-- The gauges EmbyExporter.collect_sessions sets in one cycle
(emby_exporter_fixed.py lines 218-221): session count, streaming count,
transcode count, total bandwidth in bytes, and the per-session bandwidth
series keyed (session id, user, client). -/
structure FSessMetrics where
  activeSessions : Nat
  activeStreams : Nat
  activeTranscodes : Nat
  totalBandwidth : Nat
  sessionBandwidth : List ((String × String × String) × Nat)
deriving DecidableEq, Repr

/-- The loop accumulator of EmbyExporter.collect_sessions. -/
structure FAcc where
  streams : Nat
  transcodes : Nat
  total : Nat
  series : List ((String × String × String) × Nat)

/-- Loop body of EmbyExporter.collect_sessions (lines 195-216): a session
streams iff NowPlayingItem is present; everything else happens only when
the PlayState key is present: the Bandwidth value (default 0) feeds both
the total and the per-session series, and PlayMethod equal to Transcode
bumps the transcode count. -/
def sessionStep (a : FAcc) (s : Session) : FAcc :=
  match s.nowPlaying with
  | none => a
  | some _ =>
    let a1 := { a with streams := a.streams + 1 }
    match s.playState with
    | none => a1
    | some ps =>
      let bw := s.bandwidth.getD 0
      let a2 :=
        if ps.playMethod = "Transcode" then { a1 with transcodes := a1.transcodes + 1 } else a1
      { a2 with
        total := a2.total + bw
        series := a2.series ++ [((s.id, s.userName, s.client), bw)] }

/-- collect_sessions of EmbyExporter (emby_exporter_fixed.py lines
184-223).  A failed request and an empty list are both falsy and return
early without setting any gauge (none); otherwise every gauge is set. -/
def collect_sessions (resp : Option (List Session)) : Option FSessMetrics :=
  match resp with
  | none => none
  | some sessions =>
    if sessions.isEmpty then none
    else
      let a := sessions.foldl sessionStep ⟨0, 0, 0, []⟩
      some ⟨sessions.length, a.streams, a.transcodes, a.total, a.series⟩

end Fixed

namespace Debug

/-- The gauges EmbyExporterDebug.collect_sessions sets in one cycle
(emby_exporter_debug.py lines 228-233). -/
structure DSessMetrics where
  activeSessions : Nat
  activeStreams : Nat
  activeTranscodes : Nat
  totalBandwidth : Nat
  sessionBandwidth : List (String × Nat)
deriving DecidableEq, Repr

/-- The loop accumulator of EmbyExporterDebug.collect_sessions. -/
structure DAcc where
  streams : Nat
  transcodes : Nat
  total : Nat
  series : List (String × Nat)

/-- Loop body of EmbyExporterDebug.collect_sessions (lines 158-226): a
session streams iff NowPlayingItem is present; the play method is read
with an Unknown default; the bandwidth prefers a session-level Bandwidth
key and otherwise falls back to the TranscodingInfo bitrate; a positive
bandwidth is added to the total and set on the per-session series, and
otherwise the series is still set, with value 0. -/
def sessionStep (a : DAcc) (s : Session) : DAcc :=
  match s.nowPlaying with
  | none => a
  | some _ =>
    let playMethod := (s.playState.map PlayState.playMethod).getD "Unknown"
    let a1 := { a with
      streams := a.streams + 1
      transcodes := if playMethod = "Transcode" then a.transcodes + 1 else a.transcodes }
    let bw : Nat :=
      match s.bandwidth with
      | some b => b
      | none =>
        match s.transcodingInfo with
        | some ti => ti.bitrate
        | none => 0
    if bw > 0 then
      { a1 with total := a1.total + bw, series := a1.series ++ [(s.id, bw)] }
    else
      { a1 with series := a1.series ++ [(s.id, 0)] }

/-- collect_sessions of EmbyExporterDebug (emby_exporter_debug.py lines
133-241).  Only a None response returns early (the empty list is handled
and sets every gauge to zero). -/
def collect_sessions (resp : Option (List Session)) : Option DSessMetrics :=
  match resp with
  | none => none
  | some sessions =>
    let a := sessions.foldl sessionStep ⟨0, 0, 0, []⟩
    some ⟨sessions.length, a.streams, a.transcodes, a.total, a.series⟩

end Debug

/-- The bandwidth policy stated by the spec, for comparison with the
collectors: prefer the session-level Bandwidth field, else derive from
the transcoding bitrate, defaulting to zero when neither is known. -/
def specPreferredBandwidth (s : Session) : Nat :=
  match s.bandwidth with
  | some b => b
  | none =>
    match s.transcodingInfo with
    | some ti => ti.bitrate
    | none => 0

/-- The state after one cycle observes session s on channel News24. -/
def c2State1 : Ultimate.UState :=
  Ultimate.processLiveSession Ultimate.initUState "s" "alice" "News24" 0

/-- The state after the next cycle observes the same session id on
Sports1: a channel switch. -/
def c2State2 : Ultimate.UState :=
  Ultimate.processLiveSession c2State1 "s" "alice" "Sports1" 30

/-- One polling cycle in which the single user u holds two concurrent
live-TV sessions: s1 stays on channel X and s2 stays on channel Y,
processed in response order. -/
def c10Cycle (st : Ultimate.UState) (now : ℚ) : Ultimate.UState :=
  Ultimate.processLiveSession (Ultimate.processLiveSession st "s1" "u" "X" now) "s2" "u" "Y" now

/-- The exporter state after k such cycles, cycle k running at time 30k. -/
def c10State : Nat → Ultimate.UState
  | 0 => Ultimate.initUState
  | k + 1 => c10Cycle (c10State k) (30 * (k : ℚ))

/-- An idle session: connected client with nothing playing. -/
def idleSession : Session := ⟨"s0", "bob", "web", none, none, none, none⟩

/-- A live-TV session carrying a session-level Bandwidth value and no
TranscodingInfo, playing via direct streaming. -/
def bwSession : Session :=
  ⟨"s1", "alice", "web", some 5000000, some ⟨"TvChannel", "News24", "5", "ch5"⟩,
    some ⟨"DirectStream", false⟩, none⟩

/-- Outcome of one HTTP GET as the requests library presents it to
_make_request: a transport-level failure (connection error or timeout,
raising RequestException before any response exists) or a response with
a status code and parsed body. -/
inductive HttpOutcome (α : Type) where
  | transportError : HttpOutcome α
  | resp (status : Nat) (body : α) : HttpOutcome α
deriving DecidableEq, Repr

/-- What one _make_request call returns together with its side effects on
the metric counters: the body (none = absent), whether the error counter
of that exporter was incremented, and whether a latency observation was
recorded. -/
structure ReqResult (α : Type) where
  body : Option α
  errorCounterInc : Bool
  latencyObserved : Bool
deriving DecidableEq, Repr

namespace Ultimate

/-- _make_request of EmbyLiveTVUltimateExporter (emby_livetv_ultimate.py
lines 177-197): the latency summary is observed for every received
response; a 404 returns None before raise_for_status, without touching
any error counter; any other 4xx or 5xx raises, is caught, and increments
the stream_errors api_error counter; a transport failure does the same
without a latency observation. -/
def make_request {α : Type} : HttpOutcome α → ReqResult α
  | .transportError => ⟨none, true, false⟩
  | .resp status body =>
    if status = 404 then ⟨none, false, true⟩
    else if 400 ≤ status ∧ status < 600 then ⟨none, true, true⟩
    else ⟨some body, false, true⟩

end Ultimate

namespace Fixed

/-- _make_request of EmbyExporter (emby_exporter_fixed.py lines 131-148):
raise_for_status runs before the latency observation, so every 4xx or
5xx response, 404 included, is caught as a RequestException and
increments the per-endpoint api_request_errors counter. -/
def make_request {α : Type} : HttpOutcome α → ReqResult α
  | .transportError => ⟨none, true, false⟩
  | .resp status body =>
    if 400 ≤ status ∧ status < 600 then ⟨none, true, false⟩
    else ⟨some body, false, true⟩

end Fixed

/-- Python truthiness of an optional string value: present and non-empty
(None and the empty string are falsy). -/
def pyTruthyStr : Option String → Bool
  | none => false
  | some s => !(s == "")

/-- One tuner dict, restricted to the keys collect_tuners reads. -/
structure Tuner where
  id : String
  name : String
  typ : String
  channelId : Option String
  status : Option String
  channelName : Option String
deriving DecidableEq, Repr

/-- Line 479 of emby_livetv_ultimate.py: a tuner is in use iff its
ChannelId is truthy or its Status equals LiveTv. -/
def tunerInUse (t : Tuner) : Bool :=
  pyTruthyStr t.channelId || (t.status == some "LiveTv")

/-- The tuner gauges one cycle sets: totals, the utilization percentage
and the per-tuner status series keyed (id, name, type, channel label). -/
structure TunerMetrics where
  total : Nat
  available : Nat
  inUse : Nat
  utilization : ℚ
  tunerStatus : List ((String × String × String × String) × Nat)
deriving DecidableEq, Repr

namespace Ultimate

/-- The loop accumulator of collect_tuners: in-use count, available
count, status series. -/
def tunerStep (acc : Nat × Nat × List ((String × String × String × String) × Nat))
    (t : Tuner) : Nat × Nat × List ((String × String × String × String) × Nat) :=
  if tunerInUse t then
    (acc.1 + 1, acc.2.1, acc.2.2 ++ [((t.id, t.name, t.typ, t.channelName.getD "Unknown"), 1)])
  else
    (acc.1, acc.2.1 + 1, acc.2.2 ++ [((t.id, t.name, t.typ, "None"), 0)])

/-- collect_tuners of EmbyLiveTVUltimateExporter (lines 456-506): a failed
request, a non-list response and the falsy empty list all zero the
gauges; otherwise every tuner goes to exactly one of the in-use or
available branches, and utilization is in_use over total times 100
(total is positive here, so the else branch of the utilization guard is
unreachable). -/
def collect_tuners (resp : Option (List Tuner)) : TunerMetrics :=
  match resp with
  | none => ⟨0, 0, 0, 0, []⟩
  | some tuners =>
    if tuners.isEmpty then ⟨0, 0, 0, 0, []⟩
    else
      let a := tuners.foldl tunerStep (0, 0, [])
      ⟨tuners.length, a.2.1, a.1, (a.1 : ℚ) / (tuners.length : ℚ) * 100, a.2.2⟩

end Ultimate

/-- A sample tuner list: one HDHomeRun tuner tuned to a channel, one idle. -/
def sampleTuners : List Tuner :=
  [⟨"t1", "Tuner 1", "hdhomerun", some "ch5", some "LiveTv", some "News24"⟩,
   ⟨"t2", "Tuner 2", "hdhomerun", none, none, none⟩]

namespace Ultimate

/-- The EPG days-available probe of collect_epg (emby_livetv_ultimate.py
lines 590-604).  respond d models the day-d lookahead query: none when
the request failed or returned a falsy response, some n for a response
with TotalRecordCount n (an absent count key reads as 0).  The loop runs
day = 1..14; the first day with a failed query or zero count sets the
gauge to day - 1 and breaks; if no day breaks, the for-else sets 14.
Returns (gauge value, number of queries issued). -/
def epgDaysLoop (respond : Nat → Option Nat) : Nat → Nat → Nat × Nat
  | _, 0 => (14, 0)
  | day, n + 1 =>
    match respond day with
    | none => (day - 1, 1)
    | some 0 => (day - 1, 1)
    | some (_ + 1) =>
      let p := epgDaysLoop respond (day + 1) n
      (p.1, p.2 + 1)

/-- The whole probe: 14 days of fuel starting at day 1. -/
def epgDaysProbe (respond : Nat → Option Nat) : Nat × Nat := epgDaysLoop respond 1 14

end Ultimate

/-- One recording or timer item: Size read with default 0, and the
SeriesTimerId association. -/
structure RecItem where
  size : Nat
  seriesTimerId : Option String
deriving DecidableEq, Repr

/-- A LiveTv Recordings or Timers response dict: the Items key may be
absent, TotalRecordCount is read with default 0. -/
structure ItemsResp where
  items : Option (List RecItem)
  totalRecordCount : Nat
deriving DecidableEq, Repr

/-- The recordings gauges one cycle may set; none = left unassigned. -/
structure RecMetrics where
  recordingsActive : Option Nat
  recordingsScheduled : Option Nat
  recordingSeries : Option Nat
  recordingStorageGb : Option ℚ
deriving DecidableEq, Repr

namespace Ultimate

/-- collect_recordings of EmbyLiveTVUltimateExporter (lines 508-534).
The three arguments are the responses of the in-progress recordings
request, the timers request and the all-recordings request (none =
failed).  The summary log line inside the all-recordings branch
evaluates active.get(TotalRecordCount, 0), which raises AttributeError
when the active request failed (active is None), and reads the local
scheduled_count, which raises NameError when the timers branch did not
run; the storage gauge has already been set when the log line runs, but
the raised exception leaves collect_recordings before it returns.
Except.error names the exception class. -/
def collect_recordings (active timers allRec : Option ItemsResp) :
    Except String RecMetrics :=
  let m0 : RecMetrics := ⟨none, none, none, none⟩
  let m1 :=
    match active with
    | some a =>
      if a.items.isSome then { m0 with recordingsActive := some a.totalRecordCount } else m0
    | none => m0
  let sched :=
    match timers with
    | some t =>
      match t.items with
      | some its =>
        some { m1 with
          recordingsScheduled := some t.totalRecordCount
          recordingSeries := some ((its.filter (fun i => pyTruthyStr (RecItem.seriesTimerId i))).length) }
      | none => none
    | none => none
  let m2 := sched.getD m1
  match allRec with
  | some r =>
    match r.items with
    | some its =>
      let m3 := { m2 with
        recordingStorageGb := some (((its.map RecItem.size).sum : ℚ) / (1024 * 1024 * 1024)) }
      match active with
      | none => Except.error "AttributeError"
      | some _ => if sched.isSome then Except.ok m3 else Except.error "NameError"
    | none => Except.ok m2
  | none => Except.ok m2

/-- Which steps of one collect_all_metrics cycle (lines 609-629) run,
from the recordings step on.  collect_server_info, collect_channels,
collect_sessions and collect_tuners run before collect_recordings inside
the same try block and are modelled as completing normally; when
collect_recordings raises, the except handler logs, sets server_up to 0
and increments the collection_error counter, and collect_epg is never
reached. -/
structure CycleOutcome where
  recordingsCompleted : Bool
  epgCollected : Bool
  serverUpZeroed : Bool
  collectionErrorInc : Bool
deriving DecidableEq, Repr

/-- The tail of collect_all_metrics from collect_recordings on. -/
def collect_all_metrics_tail (active timers allRec : Option ItemsResp) : CycleOutcome :=
  match collect_recordings active timers allRec with
  | .ok _ => ⟨true, true, false, false⟩
  | .error _ => ⟨false, false, true, true⟩

end Ultimate

theorem takeWhile_digits_append (xs ys : List Char) (hxs : ∀ c ∈ xs, c.isDigit = true)
    (hys : headNotDigit ys) :
    (xs ++ ys).takeWhile Char.isDigit = xs ∧ (xs ++ ys).dropWhile Char.isDigit = ys := by
  induction xs with
  | nil =>
    cases ys with
    | nil => exact ⟨rfl, rfl⟩
    | cons y ys =>
      simp only [headNotDigit] at hys
      simp [List.takeWhile, List.dropWhile, hys]
  | cons x xs ih =>
    have hx : x.isDigit = true := hxs x (by simp)
    have ih2 := ih (fun c hc => hxs c (by simp [hc]))
    simp [List.takeWhile, List.dropWhile, hx, ih2.1, ih2.2]

theorem digit_ne_Z (c : Char) (h : c.isDigit = true) : c ≠ 'Z' := by
  intro he; subst he; simp [Char.isDigit] at h

theorem digit_beq_Z (c : Char) (h : c.isDigit = true) : (c == 'Z') = false := by
  have := digit_ne_Z c h
  simp [this]

theorem endsWithZ_append (xs ys : List Char) (h : ys ≠ []) :
    endsWithZ (xs ++ ys) = endsWithZ ys := by
  induction xs with
  | nil => rfl
  | cons x xs ih =>
    rw [List.cons_append]
    cases hxy : xs ++ ys with
    | nil => exact absurd (List.append_eq_nil.mp hxy).2 h
    | cons c l => rw [show endsWithZ (x :: c :: l) = endsWithZ (c :: l) from rfl, ← hxy, ih]

theorem replaceZ_append (xs ys : List Char) :
    replaceZ (xs ++ ys) = replaceZ xs ++ replaceZ ys := by
  induction xs with
  | nil => rfl
  | cons x xs ih =>
    by_cases hx : x = 'Z' <;> simp [replaceZ, hx, ih]

theorem replaceZ_noZ (xs : List Char) (h : ∀ c ∈ xs, c ≠ 'Z') : replaceZ xs = xs := by
  induction xs with
  | nil => rfl
  | cons x xs ih =>
    have hx : x ≠ 'Z' := h x (by simp)
    simp [replaceZ, hx, ih (fun c hc => h c (by simp [hc]))]

theorem fromiso_longfrac_none
    (y1 y2 y3 y4 mo1 mo2 dd1 dd2 hh1 hh2 mi1 mi2 ss1 ss2 : Char) (frac tail : List Char)
    (hy1 : y1.isDigit = true) (hy2 : y2.isDigit = true) (hy3 : y3.isDigit = true)
    (hy4 : y4.isDigit = true) (hmo1 : mo1.isDigit = true) (hmo2 : mo2.isDigit = true)
    (hdd1 : dd1.isDigit = true) (hdd2 : dd2.isDigit = true) (hhh1 : hh1.isDigit = true)
    (hhh2 : hh2.isDigit = true) (hmi1 : mi1.isDigit = true) (hmi2 : mi2.isDigit = true)
    (hss1 : ss1.isDigit = true) (hss2 : ss2.isDigit = true)
    (hfrac : ∀ c ∈ frac, c.isDigit = true)
    (hlen3 : frac.length ≠ 3) (hlen6 : frac.length ≠ 6)
    (htail : headNotDigit tail) :
    fromisoformat ([y1, y2, y3, y4, '-', mo1, mo2, '-', dd1, dd2, 'T', hh1, hh2, ':',
      mi1, mi2, ':', ss1, ss2, '.'] ++ (frac ++ tail)) = none := by
  have htw := takeWhile_digits_append frac tail hfrac htail
  simp only [List.cons_append, List.nil_append, fromisoformat]
  rw [if_pos]
  · simp only [readFrac, htw.1, htw.2]
    rw [if_neg hlen3, if_neg hlen6]
  · exact ⟨hy1, hy2, hy3, hy4, trivial, hmo1, hmo2, trivial, hdd1, hdd2, trivial, hhh1, hhh2,
      trivial, hmi1, hmi2, trivial, hss1, hss2⟩

theorem headNotDigit_rebuilt (off : OffsetForm) : headNotDigit (rebuiltOffsetChars off) := by
  cases off with
  | zulu => simp [rebuiltOffsetChars, headNotDigit]
  | numeric plus a b d e =>
    cases plus <;> simp [rebuiltOffsetChars, headNotDigit]

theorem headNotDigit_offset (off : OffsetForm) : headNotDigit (offsetChars off) := by
  cases off with
  | zulu => simp [offsetChars, headNotDigit]
  | numeric plus a b d e =>
    cases plus <;> simp [offsetChars, headNotDigit]

theorem readOffset_rebuilt (off : OffsetForm) (hoff : offsetWellFormed off) :
    readOffset (rebuiltOffsetChars off) = some (some (offsetMinutes off), []) := by
  cases off with
  | zulu => decide
  | numeric plus a b d e =>
    obtain ⟨ha, hb, hd, he, hab, hde⟩ := hoff
    cases plus <;>
      simp [rebuiltOffsetChars, readOffset, offsetMinutes, ha, hb, hd, he] <;>
      omega

theorem matchTz_offset (off : OffsetForm) (hoff : offsetWellFormed off) :
    matchTz (offsetChars off) = some (offsetChars off) := by
  cases off with
  | zulu => decide
  | numeric plus a b d e =>
    obtain ⟨ha, hb, hd, he, _, _⟩ := hoff
    cases plus <;> simp [offsetChars, matchTz, ha, hb, hd, he]

theorem fromiso_rebuilt_some
    (y1 y2 y3 y4 mo1 mo2 dd1 dd2 hh1 hh2 mi1 mi2 ss1 ss2 f1 f2 f3 f4 f5 f6 : Char)
    (off : OffsetForm)
    (hy1 : y1.isDigit = true) (hy2 : y2.isDigit = true) (hy3 : y3.isDigit = true)
    (hy4 : y4.isDigit = true) (hmo1 : mo1.isDigit = true) (hmo2 : mo2.isDigit = true)
    (hdd1 : dd1.isDigit = true) (hdd2 : dd2.isDigit = true) (hhh1 : hh1.isDigit = true)
    (hhh2 : hh2.isDigit = true) (hmi1 : mi1.isDigit = true) (hmi2 : mi2.isDigit = true)
    (hss1 : ss1.isDigit = true) (hss2 : ss2.isDigit = true)
    (hf1 : f1.isDigit = true) (hf2 : f2.isDigit = true) (hf3 : f3.isDigit = true)
    (hf4 : f4.isDigit = true) (hf5 : f5.isDigit = true) (hf6 : f6.isDigit = true)
    (hoff : offsetWellFormed off)
    (hyl : 1 ≤ digitsVal [y1, y2, y3, y4]) (hyu : digitsVal [y1, y2, y3, y4] ≤ 9999)
    (hmol : 1 ≤ digitsVal [mo1, mo2]) (hmou : digitsVal [mo1, mo2] ≤ 12)
    (hdl : 1 ≤ digitsVal [dd1, dd2])
    (hdu : digitsVal [dd1, dd2] ≤ daysInMonth (digitsVal [y1, y2, y3, y4]) (digitsVal [mo1, mo2]))
    (hhu : digitsVal [hh1, hh2] ≤ 23) (hmiu : digitsVal [mi1, mi2] ≤ 59)
    (hssu : digitsVal [ss1, ss2] ≤ 59) :
    fromisoformat ([y1, y2, y3, y4, '-', mo1, mo2, '-', dd1, dd2, 'T', hh1, hh2, ':',
        mi1, mi2, ':', ss1, ss2] ++ '.' :: ([f1, f2, f3, f4, f5, f6] ++ rebuiltOffsetChars off)) =
      some ⟨digitsVal [y1, y2, y3, y4], digitsVal [mo1, mo2], digitsVal [dd1, dd2],
        digitsVal [hh1, hh2], digitsVal [mi1, mi2], digitsVal [ss1, ss2],
        digitsVal [f1, f2, f3, f4, f5, f6], some (offsetMinutes off)⟩ := by
  have hfd : ∀ c ∈ [f1, f2, f3, f4, f5, f6], c.isDigit = true := by
    intro c hc
    simp only [List.mem_cons, List.not_mem_nil, or_false] at hc
    rcases hc with h | h | h | h | h | h <;> subst h <;> assumption
  have htw := takeWhile_digits_append [f1, f2, f3, f4, f5, f6] (rebuiltOffsetChars off) hfd
    (headNotDigit_rebuilt off)
  simp only [List.cons_append, List.nil_append] at htw
  simp only [List.cons_append, List.nil_append, fromisoformat]
  rw [if_pos]
  · simp only [readFrac, htw.1, htw.2, List.length_cons, List.length_nil]
    norm_num
    simp only [readOffset_rebuilt off hoff]
    rw [if_pos]
    exact ⟨trivial, hyl, hyu, hmol, hmou, hdl, hdu, hhu, hmiu, hssu⟩
  · exact ⟨hy1, hy2, hy3, hy4, trivial, hmo1, hmo2, trivial, hdd1, hdd2, trivial, hhh1, hhh2,
      trivial, hmi1, hmi2, trivial, hss1, hss2⟩

theorem reMatchEmby_eval
    (y1 y2 y3 y4 mo1 mo2 dd1 dd2 hh1 hh2 mi1 mi2 ss1 ss2 f1 f2 f3 f4 f5 f6 : Char)
    (rest : List Char) (off : OffsetForm)
    (hy1 : y1.isDigit = true) (hy2 : y2.isDigit = true) (hy3 : y3.isDigit = true)
    (hy4 : y4.isDigit = true) (hmo1 : mo1.isDigit = true) (hmo2 : mo2.isDigit = true)
    (hdd1 : dd1.isDigit = true) (hdd2 : dd2.isDigit = true) (hhh1 : hh1.isDigit = true)
    (hhh2 : hh2.isDigit = true) (hmi1 : mi1.isDigit = true) (hmi2 : mi2.isDigit = true)
    (hss1 : ss1.isDigit = true) (hss2 : ss2.isDigit = true)
    (hf1 : f1.isDigit = true) (hf2 : f2.isDigit = true) (hf3 : f3.isDigit = true)
    (hf4 : f4.isDigit = true) (hf5 : f5.isDigit = true) (hf6 : f6.isDigit = true)
    (hrest : ∀ c ∈ rest, c.isDigit = true)
    (hoff : offsetWellFormed off) :
    reMatchEmby (tsString y1 y2 y3 y4 mo1 mo2 dd1 dd2 hh1 hh2 mi1 mi2 ss1 ss2
        f1 f2 f3 f4 f5 f6 rest off) =
      some ([y1, y2, y3, y4, '-', mo1, mo2, '-', dd1, dd2, 'T', hh1, hh2, ':',
        mi1, mi2, ':', ss1, ss2], [f1, f2, f3, f4, f5, f6], some (offsetChars off)) := by
  have htw := takeWhile_digits_append rest (offsetChars off) hrest (headNotDigit_offset off)
  simp only [tsString, List.cons_append, List.nil_append, List.append_assoc, reMatchEmby]
  rw [if_pos]
  · rw [htw.2, matchTz_offset off hoff]
  · exact ⟨hy1, hy2, hy3, hy4, hmo1, hmo2, hdd1, hdd2, hhh1, hhh2, hmi1, hmi2, hss1, hss2,
      hf1, hf2, hf3, hf4, hf5, hf6⟩

theorem endsWithZ_numeric (plus : Bool) (a b d e : Char) (he : e.isDigit = true) :
    endsWithZ (offsetChars (.numeric plus a b d e)) = false := by
  cases plus <;> simp [offsetChars, endsWithZ, digit_beq_Z e he]

theorem tzs_eval (off : OffsetForm) :
    (if offsetChars off = ['Z'] then ['+', '0', '0', ':', '0', '0'] else offsetChars off) =
      rebuiltOffsetChars off := by
  cases off with
  | zulu => simp [offsetChars, rebuiltOffsetChars]
  | numeric plus a b d e => cases plus <;> simp [offsetChars, rebuiltOffsetChars]

theorem fromiso_sixplus_none
    (y1 y2 y3 y4 mo1 mo2 dd1 dd2 hh1 hh2 mi1 mi2 ss1 ss2 f1 f2 f3 f4 f5 f6 : Char)
    (rest tail : List Char)
    (hy1 : y1.isDigit = true) (hy2 : y2.isDigit = true) (hy3 : y3.isDigit = true)
    (hy4 : y4.isDigit = true) (hmo1 : mo1.isDigit = true) (hmo2 : mo2.isDigit = true)
    (hdd1 : dd1.isDigit = true) (hdd2 : dd2.isDigit = true) (hhh1 : hh1.isDigit = true)
    (hhh2 : hh2.isDigit = true) (hmi1 : mi1.isDigit = true) (hmi2 : mi2.isDigit = true)
    (hss1 : ss1.isDigit = true) (hss2 : ss2.isDigit = true)
    (hf1 : f1.isDigit = true) (hf2 : f2.isDigit = true) (hf3 : f3.isDigit = true)
    (hf4 : f4.isDigit = true) (hf5 : f5.isDigit = true) (hf6 : f6.isDigit = true)
    (hrest : ∀ c ∈ rest, c.isDigit = true) (hrne : rest ≠ [])
    (htail : headNotDigit tail) :
    fromisoformat ([y1, y2, y3, y4, '-', mo1, mo2, '-', dd1, dd2, 'T', hh1, hh2, ':',
      mi1, mi2, ':', ss1, ss2, '.', f1, f2, f3, f4, f5, f6] ++ (rest ++ tail)) = none := by
  have hfrac : ∀ c ∈ f1 :: f2 :: f3 :: f4 :: f5 :: f6 :: rest, c.isDigit = true := by
    intro c hc
    simp only [List.mem_cons] at hc
    rcases hc with h | h | h | h | h | h | h
    · subst h; exact hf1
    · subst h; exact hf2
    · subst h; exact hf3
    · subst h; exact hf4
    · subst h; exact hf5
    · subst h; exact hf6
    · exact hrest c h
  have hlpos : 0 < rest.length := List.length_pos.mpr hrne
  have h3 : (f1 :: f2 :: f3 :: f4 :: f5 :: f6 :: rest).length ≠ 3 := by
    simp only [List.length_cons]; omega
  have h6 : (f1 :: f2 :: f3 :: f4 :: f5 :: f6 :: rest).length ≠ 6 := by
    simp only [List.length_cons]; omega
  have h := fromiso_longfrac_none y1 y2 y3 y4 mo1 mo2 dd1 dd2 hh1 hh2 mi1 mi2 ss1 ss2
    (f1 :: f2 :: f3 :: f4 :: f5 :: f6 :: rest) tail hy1 hy2 hy3 hy4 hmo1 hmo2 hdd1 hdd2
    hhh1 hhh2 hmi1 hmi2 hss1 hss2 hfrac h3 h6 htail
  simpa only [List.cons_append, List.nil_append, List.append_assoc] using h

theorem offsetChars_ne_nil (off : OffsetForm) : offsetChars off ≠ [] := by
  cases off with
  | zulu => simp [offsetChars]
  | numeric plus a b d e => cases plus <;> simp [offsetChars]

/-- C6: for every timestamp string made of a valid date-time, a fractional
part of 7 or more digits and a valid offset, both parse_emby_datetime
variants return the instant obtained by truncating the fraction to its
first 6 digits (not rounding). -/
theorem c6_seven_digit_fraction_truncated
    (y1 y2 y3 y4 mo1 mo2 dd1 dd2 hh1 hh2 mi1 mi2 ss1 ss2 f1 f2 f3 f4 f5 f6 : Char)
    (rest : List Char) (off : OffsetForm)
    (hy1 : y1.isDigit = true) (hy2 : y2.isDigit = true) (hy3 : y3.isDigit = true)
    (hy4 : y4.isDigit = true) (hmo1 : mo1.isDigit = true) (hmo2 : mo2.isDigit = true)
    (hdd1 : dd1.isDigit = true) (hdd2 : dd2.isDigit = true) (hhh1 : hh1.isDigit = true)
    (hhh2 : hh2.isDigit = true) (hmi1 : mi1.isDigit = true) (hmi2 : mi2.isDigit = true)
    (hss1 : ss1.isDigit = true) (hss2 : ss2.isDigit = true)
    (hf1 : f1.isDigit = true) (hf2 : f2.isDigit = true) (hf3 : f3.isDigit = true)
    (hf4 : f4.isDigit = true) (hf5 : f5.isDigit = true) (hf6 : f6.isDigit = true)
    (hrestd : ∀ c ∈ rest, c.isDigit = true) (hrne : rest ≠ [])
    (hoff : offsetWellFormed off)
    (hyl : 1 ≤ digitsVal [y1, y2, y3, y4]) (hyu : digitsVal [y1, y2, y3, y4] ≤ 9999)
    (hmol : 1 ≤ digitsVal [mo1, mo2]) (hmou : digitsVal [mo1, mo2] ≤ 12)
    (hdl : 1 ≤ digitsVal [dd1, dd2])
    (hdu : digitsVal [dd1, dd2] ≤ daysInMonth (digitsVal [y1, y2, y3, y4]) (digitsVal [mo1, mo2]))
    (hhu : digitsVal [hh1, hh2] ≤ 23) (hmiu : digitsVal [mi1, mi2] ≤ 59)
    (hssu : digitsVal [ss1, ss2] ≤ 59) :
    Ultimate.parse_emby_datetime (tsString y1 y2 y3 y4 mo1 mo2 dd1 dd2 hh1 hh2 mi1 mi2 ss1 ss2
        f1 f2 f3 f4 f5 f6 rest off) =
      some ⟨digitsVal [y1, y2, y3, y4], digitsVal [mo1, mo2], digitsVal [dd1, dd2],
        digitsVal [hh1, hh2], digitsVal [mi1, mi2], digitsVal [ss1, ss2],
        digitsVal [f1, f2, f3, f4, f5, f6], some (offsetMinutes off)⟩ ∧
    Fixed.parse_emby_datetime (tsString y1 y2 y3 y4 mo1 mo2 dd1 dd2 hh1 hh2 mi1 mi2 ss1 ss2
        f1 f2 f3 f4 f5 f6 rest off) =
      some ⟨digitsVal [y1, y2, y3, y4], digitsVal [mo1, mo2], digitsVal [dd1, dd2],
        digitsVal [hh1, hh2], digitsVal [mi1, mi2], digitsVal [ss1, ss2],
        digitsVal [f1, f2, f3, f4, f5, f6], some (offsetMinutes off)⟩ := by
  have hSne : tsString y1 y2 y3 y4 mo1 mo2 dd1 dd2 hh1 hh2 mi1 mi2 ss1 ss2
      f1 f2 f3 f4 f5 f6 rest off ≠ [] := by
    simp [tsString]
  have hfirst : (if endsWithZ (tsString y1 y2 y3 y4 mo1 mo2 dd1 dd2 hh1 hh2 mi1 mi2 ss1 ss2
        f1 f2 f3 f4 f5 f6 rest off)
      then fromisoformat (replaceZ (tsString y1 y2 y3 y4 mo1 mo2 dd1 dd2 hh1 hh2 mi1 mi2 ss1 ss2
        f1 f2 f3 f4 f5 f6 rest off))
      else fromisoformat (tsString y1 y2 y3 y4 mo1 mo2 dd1 dd2 hh1 hh2 mi1 mi2 ss1 ss2
        f1 f2 f3 f4 f5 f6 rest off)) = none := by
    cases off with
    | zulu =>
      have hz : endsWithZ (tsString y1 y2 y3 y4 mo1 mo2 dd1 dd2 hh1 hh2 mi1 mi2 ss1 ss2
          f1 f2 f3 f4 f5 f6 rest .zulu) = true := by
        unfold tsString
        rw [endsWithZ_append _ _ (offsetChars_ne_nil .zulu)]
        decide
      rw [if_pos hz]
      have hnoZ : ∀ c ∈ ([y1, y2, y3, y4, '-', mo1, mo2, '-', dd1, dd2, 'T', hh1, hh2, ':',
          mi1, mi2, ':', ss1, ss2, '.', f1, f2, f3, f4, f5, f6] ++ rest), c ≠ 'Z' := by
        intro c hc
        rcases List.mem_append.mp hc with h | h
        · simp only [List.mem_cons, List.not_mem_nil, or_false] at h
          rcases h with h | h | h | h | h | h | h | h | h | h | h | h | h | h | h | h | h | h |
            h | h | h | h | h | h | h | h <;> subst h <;>
            first
              | exact digit_ne_Z _ (by assumption)
              | decide
        · exact digit_ne_Z c (hrestd c h)
      have hrz : replaceZ (tsString y1 y2 y3 y4 mo1 mo2 dd1 dd2 hh1 hh2 mi1 mi2 ss1 ss2
          f1 f2 f3 f4 f5 f6 rest .zulu) =
          [y1, y2, y3, y4, '-', mo1, mo2, '-', dd1, dd2, 'T', hh1, hh2, ':',
            mi1, mi2, ':', ss1, ss2, '.', f1, f2, f3, f4, f5, f6] ++
            (rest ++ ['+', '0', '0', ':', '0', '0']) := by
        unfold tsString
        rw [replaceZ_append, replaceZ_noZ _ hnoZ]
        rw [List.append_assoc]
        congr 1
      rw [hrz]
      exact fromiso_sixplus_none y1 y2 y3 y4 mo1 mo2 dd1 dd2 hh1 hh2 mi1 mi2 ss1 ss2
        f1 f2 f3 f4 f5 f6 rest ['+', '0', '0', ':', '0', '0'] hy1 hy2 hy3 hy4 hmo1 hmo2
        hdd1 hdd2 hhh1 hhh2 hmi1 hmi2 hss1 hss2 hf1 hf2 hf3 hf4 hf5 hf6 hrestd hrne
        (by simp [headNotDigit])
    | numeric plus a b d e =>
      obtain ⟨ha, hb, hd, he, hab, hde⟩ := hoff
      have hz : endsWithZ (tsString y1 y2 y3 y4 mo1 mo2 dd1 dd2 hh1 hh2 mi1 mi2 ss1 ss2
          f1 f2 f3 f4 f5 f6 rest (.numeric plus a b d e)) = false := by
        unfold tsString
        rw [endsWithZ_append _ _ (offsetChars_ne_nil (.numeric plus a b d e))]
        exact endsWithZ_numeric plus a b d e he
      rw [if_neg (by simp [hz])]
      unfold tsString
      rw [List.append_assoc]
      exact fromiso_sixplus_none y1 y2 y3 y4 mo1 mo2 dd1 dd2 hh1 hh2 mi1 mi2 ss1 ss2
        f1 f2 f3 f4 f5 f6 rest (offsetChars (.numeric plus a b d e)) hy1 hy2 hy3 hy4 hmo1 hmo2
        hdd1 hdd2 hhh1 hhh2 hmi1 hmi2 hss1 hss2 hf1 hf2 hf3 hf4 hf5 hf6 hrestd hrne
        (headNotDigit_offset (.numeric plus a b d e))
  have hre := reMatchEmby_eval y1 y2 y3 y4 mo1 mo2 dd1 dd2 hh1 hh2 mi1 mi2 ss1 ss2
    f1 f2 f3 f4 f5 f6 rest off hy1 hy2 hy3 hy4 hmo1 hmo2 hdd1 hdd2 hhh1 hhh2 hmi1 hmi2
    hss1 hss2 hf1 hf2 hf3 hf4 hf5 hf6 hrestd hoff
  have hfinal := fromiso_rebuilt_some y1 y2 y3 y4 mo1 mo2 dd1 dd2 hh1 hh2 mi1 mi2 ss1 ss2
    f1 f2 f3 f4 f5 f6 off hy1 hy2 hy3 hy4 hmo1 hmo2 hdd1 hdd2 hhh1 hhh2 hmi1 hmi2 hss1 hss2
    hf1 hf2 hf3 hf4 hf5 hf6 (by cases off with
      | zulu => trivial
      | numeric plus a b d e => exact hoff) hyl hyu hmol hmou hdl hdu hhu hmiu hssu
  constructor
  · simp only [Ultimate.parse_emby_datetime]
    rw [if_neg hSne, hfirst, hre]
    simp only [tzs_eval]
    exact hfinal
  · simp only [Fixed.parse_emby_datetime]
    rw [if_neg hSne, hfirst, hre]
    simp only [tzs_eval]
    exact hfinal

theorem c6_witness :
    Ultimate.parse_emby_datetime (tsString '2' '0' '2' '5' '0' '7' '2' '0' '0' '1' '1' '6'
        '2' '9' '5' '7' '0' '6' '4' '8' ['8'] (.numeric true '0' '0' '0' '0')) =
      some ⟨2025, 7, 20, 1, 16, 29, 570648, some 0⟩ ∧
    Fixed.parse_emby_datetime (tsString '2' '0' '2' '5' '0' '7' '2' '0' '0' '1' '1' '6'
        '2' '9' '5' '7' '0' '6' '4' '8' ['8'] (.numeric true '0' '0' '0' '0')) =
      some ⟨2025, 7, 20, 1, 16, 29, 570648, some 0⟩ :=
  c6_seven_digit_fraction_truncated '2' '0' '2' '5' '0' '7' '2' '0' '0' '1' '1' '6'
    '2' '9' '5' '7' '0' '6' '4' '8' ['8'] (.numeric true '0' '0' '0' '0')
    (by decide) (by decide) (by decide) (by decide) (by decide) (by decide)
    (by decide) (by decide) (by decide) (by decide) (by decide) (by decide)
    (by decide) (by decide) (by decide) (by decide) (by decide) (by decide)
    (by decide) (by decide) (by decide) (by decide)
    ⟨by decide, by decide, by decide, by decide, by decide, by decide⟩
    (by decide) (by decide) (by decide) (by decide) (by decide) (by decide)
    (by decide) (by decide) (by decide)

/-- C7: for every input string the datetime parser returns either a parsed
instant or none; the embedding is total because every exception path in
both sources is caught (the first attempt raises only ValueError for a
string input, and the fallback blocks catch Exception), and the empty
string is falsy, yielding none immediately. -/
theorem c7_parser_total (s : List Char) :
    Ultimate.parse_emby_datetime [] = none ∧ Fixed.parse_emby_datetime [] = none ∧
    (Ultimate.parse_emby_datetime s = none ∨ ∃ dt, Ultimate.parse_emby_datetime s = some dt) ∧
    (Fixed.parse_emby_datetime s = none ∨ ∃ dt, Fixed.parse_emby_datetime s = some dt) := by
  refine ⟨rfl, rfl, ?_, ?_⟩
  · cases h : Ultimate.parse_emby_datetime s with
    | none => exact Or.inl rfl
    | some dt => exact Or.inr ⟨dt, rfl⟩
  · cases h : Fixed.parse_emby_datetime s with
    | none => exact Or.inl rfl
    | some dt => exact Or.inr ⟨dt, rfl⟩

theorem c7_witness :
    Ultimate.parse_emby_datetime [] = none ∧ Fixed.parse_emby_datetime [] = none ∧
    (Ultimate.parse_emby_datetime ['g', 'a', 'r', 'b', 'a', 'g', 'e'] = none ∨
      ∃ dt, Ultimate.parse_emby_datetime ['g', 'a', 'r', 'b', 'a', 'g', 'e'] = some dt) ∧
    (Fixed.parse_emby_datetime ['g', 'a', 'r', 'b', 'a', 'g', 'e'] = none ∨
      ∃ dt, Fixed.parse_emby_datetime ['g', 'a', 'r', 'b', 'a', 'g', 'e'] = some dt) :=
  c7_parser_total ['g', 'a', 'r', 'b', 'a', 'g', 'e']

namespace Ultimate

theorem watchStep_switchCount (st : UState) (sessionId user channelName : String) (now : ℚ) :
    (watchStep st sessionId user channelName now).switchCount = st.switchCount ∧
    (watchStep st sessionId user channelName now).lastChannelSwitch = st.lastChannelSwitch := by
  unfold watchStep
  cases st.channelWatchStart sessionId with
  | none => exact ⟨rfl, rfl⟩
  | some p =>
    obtain ⟨u0, c0, t0⟩ := p
    by_cases h : c0 = channelName <;> simp [h]

end Ultimate

/-- C2 (amended): watch-time accrual and switch behaviour of
collect_sessions, lines 314-328. -/
theorem c2_watch_accrual_switch_no_reanchor
    (st : Ultimate.UState) (sid u c c2ch : String) (t0 now : ℚ)
    (hanchor : st.channelWatchStart sid = some (u, c, t0))
    (hlast : st.lastChannelSwitch u = some c) (hne : c2ch ≠ c) :
    ((Ultimate.processLiveSession st sid u c now).watchTime u c
        = st.watchTime u c + (now - t0) ∧
      (Ultimate.processLiveSession st sid u c now).channelWatchStart sid = some (u, c, t0)) ∧
    ((Ultimate.processLiveSession st sid u c2ch now).switchCount u = st.switchCount u + 1 ∧
      (Ultimate.processLiveSession st sid u c2ch now).channelWatchStart sid = some (u, c, t0) ∧
      (Ultimate.processLiveSession st sid u c2ch now).watchTime = st.watchTime) := by
  constructor
  · constructor
    · simp [Ultimate.processLiveSession, Ultimate.switchStep, Ultimate.watchStep,
        hanchor, hlast]
    · simp [Ultimate.processLiveSession, Ultimate.switchStep, Ultimate.watchStep,
        hanchor, hlast]
  · refine ⟨?_, ?_, ?_⟩
    · simp [Ultimate.processLiveSession, Ultimate.switchStep, Ultimate.watchStep,
        hanchor, hlast, hne, Ne.symm hne]
    · simp [Ultimate.processLiveSession, Ultimate.switchStep, Ultimate.watchStep,
        hanchor, hlast, hne, Ne.symm hne]
    · simp [Ultimate.processLiveSession, Ultimate.switchStep, Ultimate.watchStep,
        hanchor, hlast, hne, Ne.symm hne]

theorem c2_counterexample :
    c2State2.channelWatchStart "s" = some ("alice", "News24", (0 : ℚ)) ∧
    ("News24" : String) ≠ "Sports1" := by
  constructor
  · rfl
  · decide

theorem c2_witness :
    c2State1.channelWatchStart "s" = some ("alice", "News24", (0 : ℚ)) ∧
    c2State1.lastChannelSwitch "alice" = some "News24" ∧
    ("Sports1" : String) ≠ "News24" ∧
    (((Ultimate.processLiveSession c2State1 "s" "alice" "News24" 30).watchTime "alice" "News24"
        = c2State1.watchTime "alice" "News24" + (30 - 0) ∧
      (Ultimate.processLiveSession c2State1 "s" "alice" "News24" 30).channelWatchStart "s"
        = some ("alice", "News24", (0 : ℚ))) ∧
    ((Ultimate.processLiveSession c2State1 "s" "alice" "Sports1" 30).switchCount "alice"
        = c2State1.switchCount "alice" + 1 ∧
      (Ultimate.processLiveSession c2State1 "s" "alice" "Sports1" 30).channelWatchStart "s"
        = some ("alice", "News24", (0 : ℚ)) ∧
      (Ultimate.processLiveSession c2State1 "s" "alice" "Sports1" 30).watchTime
        = c2State1.watchTime)) :=
  ⟨rfl, rfl, by decide,
    c2_watch_accrual_switch_no_reanchor c2State1 "s" "alice" "News24" "Sports1" 0 30
      rfl rfl (by decide)⟩

theorem c10_cycle_step (st : Ultimate.UState) (now : ℚ)
    (h : st.lastChannelSwitch "u" = some "Y") :
    (c10Cycle st now).switchCount "u" = st.switchCount "u" + 2 ∧
    (c10Cycle st now).lastChannelSwitch "u" = some "Y" := by
  have hxy : ("Y" : String) ≠ "X" := by decide
  have hyx : ("X" : String) ≠ "Y" := by decide
  have w1 := Ultimate.watchStep_switchCount (Ultimate.switchStep st "u" "X") "s1" "u" "X" now
  have hA1 : (Ultimate.switchStep st "u" "X").switchCount "u" = st.switchCount "u" + 1 := by
    simp [Ultimate.switchStep, h, hxy]
  have hA2 : (Ultimate.switchStep st "u" "X").lastChannelSwitch "u" = some "X" := by
    simp [Ultimate.switchStep, h, hxy]
  have hB1 : (Ultimate.processLiveSession st "s1" "u" "X" now).switchCount "u"
      = st.switchCount "u" + 1 := by
    rw [Ultimate.processLiveSession, w1.1, hA1]
  have hB2 : (Ultimate.processLiveSession st "s1" "u" "X" now).lastChannelSwitch "u"
      = some "X" := by
    rw [Ultimate.processLiveSession, w1.2, hA2]
  have w2 := Ultimate.watchStep_switchCount
    (Ultimate.switchStep (Ultimate.processLiveSession st "s1" "u" "X" now) "u" "Y") "s2" "u" "Y" now
  have hC1 : (Ultimate.switchStep (Ultimate.processLiveSession st "s1" "u" "X" now) "u"
      "Y").switchCount "u"
      = (Ultimate.processLiveSession st "s1" "u" "X" now).switchCount "u" + 1 := by
    simp [Ultimate.switchStep, hB2, hyx]
  have hC2 : (Ultimate.switchStep (Ultimate.processLiveSession st "s1" "u" "X" now) "u"
      "Y").lastChannelSwitch "u" = some "Y" := by
    simp [Ultimate.switchStep, hB2, hyx]
  constructor
  · show (Ultimate.processLiveSession (Ultimate.processLiveSession st "s1" "u" "X" now)
      "s2" "u" "Y" now).switchCount "u" = st.switchCount "u" + 2
    rw [Ultimate.processLiveSession, w2.1, hC1, hB1]
  · show (Ultimate.processLiveSession (Ultimate.processLiveSession st "s1" "u" "X" now)
      "s2" "u" "Y" now).lastChannelSwitch "u" = some "Y"
    rw [Ultimate.processLiveSession, w2.2, hC2]

theorem c10_lastY (k : Nat) (hk : 1 ≤ k) : (c10State k).lastChannelSwitch "u" = some "Y" := by
  induction k with
  | zero => omega
  | succ n ih =>
    match n, ih with
    | 0, _ => rfl
    | m + 1, ih => exact (c10_cycle_step (c10State (m + 1)) (30 * ((m + 1 : Nat) : ℚ))
        (ih (by omega))).2

/-- C10: with two concurrent sessions of one user on two distinct
channels, every cycle after the first bumps the switch counter by 2. -/
theorem c10_concurrent_sessions_inflate_switches (k : Nat) (hk : 1 ≤ k) :
    (c10State (k + 1)).switchCount "u" = (c10State k).switchCount "u" + 2 :=
  (c10_cycle_step (c10State k) (30 * (k : ℚ)) (c10_lastY k hk)).1

theorem c10_witness :
    1 ≤ 1 ∧ (c10State 2).switchCount "u" = (c10State 1).switchCount "u" + 2 :=
  ⟨le_refl 1, c10_concurrent_sessions_inflate_switches 1 (le_refl 1)⟩

theorem fixed_fold_idle (ss : List Session) (hidle : ∀ s ∈ ss, s.nowPlaying = none) :
    ∀ a : Fixed.FAcc, ss.foldl Fixed.sessionStep a = a := by
  induction ss with
  | nil => intro a; rfl
  | cons s ss ih =>
    intro a
    have hs : s.nowPlaying = none := hidle s (by simp)
    rw [List.foldl_cons, show Fixed.sessionStep a s = a by simp [Fixed.sessionStep, hs]]
    exact ih (fun t ht => hidle t (by simp [ht])) a

theorem ultimate_fold_idle (ss : List Session) (now : ℚ)
    (hidle : ∀ s ∈ ss, s.nowPlaying = none) :
    ∀ a : Ultimate.UAcc, ss.foldl (Ultimate.sessionStep now) a = a := by
  induction ss with
  | nil => intro a; rfl
  | cons s ss ih =>
    intro a
    have hs : s.nowPlaying = none := hidle s (by simp)
    rw [List.foldl_cons, show Ultimate.sessionStep now a s = a by simp [Ultimate.sessionStep, hs]]
    exact ih (fun t ht => hidle t (by simp [ht])) a

/-- C4 (amended): with a NON-empty session list containing no streaming
session, every session-derived gauge is set to 0 in both exporters; with
an empty list both collectors return early without setting any gauge. -/
theorem c4_zero_gauges_only_for_nonempty_list (ss : List Session) (hne : ss ≠ [])
    (hidle : ∀ s ∈ ss, s.nowPlaying = none) :
    Fixed.collect_sessions (some ss) = some ⟨ss.length, 0, 0, 0, []⟩ ∧
    (∃ st m, Ultimate.collect_sessions Ultimate.initUState (some ss) 0 = some (st, m) ∧
      m.streamsActive = 0 ∧ m.transcodingActive = 0 ∧ m.totalBandwidthMbps = 0) ∧
    Fixed.collect_sessions (some []) = none ∧
    Ultimate.collect_sessions Ultimate.initUState (some []) 0 = none := by
  have hemp : ss.isEmpty = false := by
    cases ss with
    | nil => exact absurd rfl hne
    | cons s ss => rfl
  refine ⟨?_, ?_, rfl, rfl⟩
  · simp only [Fixed.collect_sessions, hemp, Bool.false_eq_true, if_false,
      fixed_fold_idle ss hidle]
  · refine ⟨Ultimate.initUState, ⟨0, 0, 0, 0, [], 0⟩, ?_, rfl, rfl, rfl⟩
    simp only [Ultimate.collect_sessions, hemp, Bool.false_eq_true, if_false,
      ultimate_fold_idle ss 0 hidle]
    rfl

theorem c4_witness :
    ([idleSession] : List Session) ≠ [] ∧
    (Fixed.collect_sessions (some [idleSession]) = some ⟨1, 0, 0, 0, []⟩ ∧
      (∃ st m, Ultimate.collect_sessions Ultimate.initUState (some [idleSession]) 0
          = some (st, m) ∧
        m.streamsActive = 0 ∧ m.transcodingActive = 0 ∧ m.totalBandwidthMbps = 0) ∧
      Fixed.collect_sessions (some []) = none ∧
      Ultimate.collect_sessions Ultimate.initUState (some []) 0 = none) :=
  ⟨by decide, c4_zero_gauges_only_for_nonempty_list [idleSession] (by decide) (by decide)⟩

/-- C4 counterexample: on the empty session list both collectors return
early (none: no gauge assignment happens), instead of setting the
session-derived gauges to 0 as the claim states. -/
theorem c4_counterexample :
    Fixed.collect_sessions (some []) = none ∧
    Ultimate.collect_sessions Ultimate.initUState (some []) 0 = none ∧
    Fixed.collect_sessions (some [idleSession]) ≠ none := by
  refine ⟨rfl, rfl, ?_⟩
  intro h
  simp [Fixed.collect_sessions, List.isEmpty] at h

theorem debug_fold_spec (ss : List Session) : ∀ a : Debug.DAcc,
    (ss.foldl Debug.sessionStep a).series =
      a.series ++ ss.filterMap
        (fun s => if s.nowPlaying.isSome then some (s.id, specPreferredBandwidth s) else none) ∧
    (ss.foldl Debug.sessionStep a).total =
      a.total + (ss.map
        (fun s => if s.nowPlaying.isSome then specPreferredBandwidth s else 0)).sum := by
  induction ss with
  | nil => intro a; simp
  | cons s ss ih =>
    intro a
    simp only [List.foldl_cons, List.filterMap_cons, List.map_cons, List.sum_cons]
    cases hnp : s.nowPlaying with
    | none =>
      have hstep : Debug.sessionStep a s = a := by simp [Debug.sessionStep, hnp]
      simp [hstep, hnp, ih a]
    | some np =>
      have hbw : (match s.bandwidth with
        | some b => b
        | none =>
          match s.transcodingInfo with
          | some ti => ti.bitrate
          | none => 0) = specPreferredBandwidth s := rfl
      have hstep : Debug.sessionStep a s =
          { a with
            streams := a.streams + 1
            transcodes := if (s.playState.map PlayState.playMethod).getD "Unknown" = "Transcode"
              then a.transcodes + 1 else a.transcodes
            total := a.total + specPreferredBandwidth s
            series := a.series ++ [(s.id, specPreferredBandwidth s)] } := by
        by_cases hpos : specPreferredBandwidth s > 0
        · simp [Debug.sessionStep, hnp, hbw, hpos]
        · have h0 : specPreferredBandwidth s = 0 := by omega
          simp [Debug.sessionStep, hnp, hbw, hpos, h0]
      rw [hstep]
      obtain ⟨ihs, iht⟩ := ih
        { a with
          streams := a.streams + 1
          transcodes := if (s.playState.map PlayState.playMethod).getD "Unknown" = "Transcode"
            then a.transcodes + 1 else a.transcodes
          total := a.total + specPreferredBandwidth s
          series := a.series ++ [(s.id, specPreferredBandwidth s)] }
      constructor
      · rw [ihs]; simp [hnp, List.append_assoc]
      · rw [iht]; simp [hnp, Nat.add_assoc]

/-- C5 (amended): in the debug exporter, the per-session bandwidth series
is set for every streaming session with the preferred bandwidth (session
Bandwidth field, else transcoding bitrate, else 0) and the total gauge is
their sum. -/
theorem c5_debug_bandwidth_policy (ss : List Session) :
    ∃ m, Debug.collect_sessions (some ss) = some m ∧
      m.sessionBandwidth = ss.filterMap
        (fun s => if s.nowPlaying.isSome then some (s.id, specPreferredBandwidth s) else none) ∧
      m.totalBandwidth = (ss.map
        (fun s => if s.nowPlaying.isSome then specPreferredBandwidth s else 0)).sum := by
  obtain ⟨hs, ht⟩ := debug_fold_spec ss ⟨0, 0, 0, []⟩
  exact ⟨_, rfl, by simpa using hs, by simpa using ht⟩

theorem c5_witness :
    ∃ m, Debug.collect_sessions (some [bwSession, idleSession]) = some m ∧
      m.sessionBandwidth = [bwSession, idleSession].filterMap
        (fun s => if s.nowPlaying.isSome then some (s.id, specPreferredBandwidth s) else none) ∧
      m.totalBandwidth = ([bwSession, idleSession].map
        (fun s => if s.nowPlaying.isSome then specPreferredBandwidth s else 0)).sum :=
  c5_debug_bandwidth_policy [bwSession, idleSession]

/-- C5 counterexample: the ultimate exporter ignores the session-level
Bandwidth field entirely: a streaming live-TV session with Bandwidth set
and no TranscodingInfo gets no per-session bitrate series at all and
contributes nothing to the bandwidth total, refuting the claim that the
per-session series is always set with the preferred bandwidth. -/
theorem c5_counterexample :
    (Ultimate.collect_sessions Ultimate.initUState (some [bwSession]) 0).map
      (fun p => (p.2.streamBitrateKbps, p.2.totalBandwidthMbps)) = some ([], 0) ∧
    bwSession.bandwidth = some 5000000 := by
  exact ⟨rfl, rfl⟩

/-- C3 (amended): a 404 yields the absent outcome in both exporters, but
only the ultimate exporter leaves its error counter untouched; the fixed
exporter increments its per-endpoint error counter on 404. -/
theorem c3_404_absent_error_counter {α : Type} (b : α) :
    Ultimate.make_request (HttpOutcome.resp 404 b) = ⟨none, false, true⟩ ∧
    Fixed.make_request (HttpOutcome.resp 404 b) = ⟨none, true, false⟩ := by
  constructor <;> rfl

theorem c3_witness :
    Ultimate.make_request (HttpOutcome.resp 404 (0 : Nat)) = ⟨none, false, true⟩ ∧
    Fixed.make_request (HttpOutcome.resp 404 (0 : Nat)) = ⟨none, true, false⟩ :=
  c3_404_absent_error_counter 0

/-- C3 counterexample: in the fixed exporter a 404 response does increment
the per-endpoint error counter (raise_for_status raises, the handler
counts it), contradicting the claim for that API client. -/
theorem c3_counterexample :
    (Fixed.make_request (HttpOutcome.resp 404 (0 : Nat))).errorCounterInc = true ∧
    (Fixed.make_request (HttpOutcome.resp 404 (0 : Nat))).body = none := by
  constructor <;> rfl

namespace Ultimate

theorem tunerStep_counts (ts : List Tuner) :
    ∀ acc : Nat × Nat × List ((String × String × String × String) × Nat),
    (ts.foldl tunerStep acc).1 + (ts.foldl tunerStep acc).2.1 = acc.1 + acc.2.1 + ts.length := by
  induction ts with
  | nil => intro acc; simp
  | cons t ts ih =>
    intro acc
    rw [List.foldl_cons]
    rw [ih (tunerStep acc t)]
    by_cases h : tunerInUse t <;> simp [tunerStep, h, List.length_cons] <;> omega

end Ultimate

/-- C9: for every non-empty tuner list, each tuner is classified as
exactly one of in-use or available, so the gauges satisfy
in_use + available = total, and utilization equals in_use / total * 100. -/
theorem c9_tuner_partition_utilization (ts : List Tuner) (hne : ts ≠ []) :
    (Ultimate.collect_tuners (some ts)).inUse + (Ultimate.collect_tuners (some ts)).available
      = (Ultimate.collect_tuners (some ts)).total ∧
    (Ultimate.collect_tuners (some ts)).utilization
      = ((Ultimate.collect_tuners (some ts)).inUse : ℚ)
        / ((Ultimate.collect_tuners (some ts)).total : ℚ) * 100 := by
  have hemp : ts.isEmpty = false := by
    cases ts with
    | nil => exact absurd rfl hne
    | cons t ts => rfl
  have hc := Ultimate.tunerStep_counts ts (0, 0, [])
  constructor
  · simp only [Ultimate.collect_tuners, hemp, Bool.false_eq_true, if_false]
    simpa using hc
  · simp only [Ultimate.collect_tuners, hemp, Bool.false_eq_true, if_false]

theorem c9_witness :
    (Ultimate.collect_tuners (some sampleTuners)).inUse
        + (Ultimate.collect_tuners (some sampleTuners)).available
      = (Ultimate.collect_tuners (some sampleTuners)).total ∧
    (Ultimate.collect_tuners (some sampleTuners)).utilization
      = ((Ultimate.collect_tuners (some sampleTuners)).inUse : ℚ)
        / ((Ultimate.collect_tuners (some sampleTuners)).total : ℚ) * 100 :=
  c9_tuner_partition_utilization sampleTuners (by decide)

namespace Ultimate

theorem epgDaysLoop_spec (respond : Nat → Option Nat) :
    ∀ (n day j : Nat), j ≤ n →
    (∀ i, i < j → ∃ m, respond (day + i) = some (m + 1)) →
    (j < n → respond (day + j) = some 0) →
    epgDaysLoop respond day n = if j < n then (day + j - 1, j + 1) else (14, n) := by
  intro n
  induction n with
  | zero =>
    intro day j hj _ _
    simp only [Nat.not_lt_zero, if_false]
    rfl
  | succ n ih =>
    intro day j hj hpos hstop
    cases j with
    | zero =>
      have h0 : respond day = some 0 := by simpa using hstop (Nat.succ_pos n)
      simp [epgDaysLoop, h0, Nat.succ_pos n]
    | succ j =>
      obtain ⟨m, hm⟩ := hpos 0 (Nat.succ_pos j)
      rw [show day + 0 = day from rfl] at hm
      have ihj := ih (day + 1) j (Nat.le_of_succ_le_succ hj)
        (fun i hi => by
          have := hpos (i + 1) (Nat.succ_lt_succ hi)
          simpa [Nat.add_assoc, Nat.add_comm 1 i] using this)
        (fun hlt => by
          have := hstop (Nat.succ_lt_succ hlt)
          simpa [Nat.add_assoc, Nat.add_comm 1 j] using this)
      simp only [epgDaysLoop, hm]
      rw [ihj]
      by_cases hlt : j < n
      · simp only [hlt, if_true, Nat.succ_lt_succ hlt, if_true, Prod.mk.injEq]
        exact ⟨by omega, trivial⟩
      · have h2 : ¬ j + 1 < n + 1 := by omega
        simp [hlt, h2]

end Ultimate

/-- C8: the probe issues at most 14 queries, stops at the first day whose
query reports zero programs, sets the gauge to the count of preceding
non-empty days, and sets 14 when all 14 days report programs.  k is the
number of leading days with programs. -/
theorem c8_epg_days_probe (respond : Nat → Option Nat) (k : Nat) (hk : k ≤ 14)
    (hpos : ∀ d, 1 ≤ d → d ≤ k → ∃ m, respond d = some (m + 1))
    (hstop : k < 14 → respond (k + 1) = some 0) :
    Ultimate.epgDaysProbe respond = (k, min (k + 1) 14) ∧
    (Ultimate.epgDaysProbe respond).2 ≤ 14 := by
  have h := Ultimate.epgDaysLoop_spec respond 14 1 k hk
    (fun i hi => by
      have := hpos (1 + i) (by omega) (by omega)
      simpa using this)
    (fun hlt => by
      have := hstop hlt
      simpa [Nat.add_comm 1 k] using this)
  unfold Ultimate.epgDaysProbe
  rw [h]
  by_cases hlt : k < 14
  · simp only [hlt, if_true, Prod.mk.injEq]
    refine ⟨⟨by omega, by omega⟩, by omega⟩
  · have hk14 : k = 14 := by omega
    subst hk14
    simp

theorem c8_witness :
    Ultimate.epgDaysProbe (fun d => if d ≤ 3 then some 5 else some 0) = (3, min (3 + 1) 14) ∧
    (Ultimate.epgDaysProbe (fun d => if d ≤ 3 then some 5 else some 0)).2 ≤ 14 :=
  c8_epg_days_probe (fun d => if d ≤ 3 then some 5 else some 0) 3 (by omega)
    (fun d _ h3 => ⟨4, by simp [h3]⟩) (fun _ => rfl)

/-- C1 (code bug): when the timers request fails while both recordings
requests succeed, the summary log line of collect_recordings reads the
never-assigned local scheduled_count and raises NameError; the cycle
handler catches it, zeroes server_up, and collect_epg is skipped for the
cycle.  When the active request is the one that failed, the same line
raises AttributeError on active.get.  A cycle whose three recordings
requests all succeed runs collect_epg. -/
theorem c1_recordings_failure_skips_epg :
    Ultimate.collect_recordings (some ⟨some [], 0⟩) none (some ⟨some [⟨1000000000, none⟩], 1⟩)
      = Except.error "NameError" ∧
    Ultimate.collect_all_metrics_tail (some ⟨some [], 0⟩) none
      (some ⟨some [⟨1000000000, none⟩], 1⟩) = ⟨false, false, true, true⟩ ∧
    Ultimate.collect_recordings none (some ⟨some [], 2⟩) (some ⟨some [], 0⟩)
      = Except.error "AttributeError" ∧
    Ultimate.collect_all_metrics_tail (some ⟨some [], 0⟩) (some ⟨some [], 2⟩)
      (some ⟨some [], 0⟩) = ⟨true, true, false, false⟩ := by
  refine ⟨rfl, rfl, rfl, rfl⟩
